import Mathlib

/-!
Verification of the wsj0-mix / musdb18 source-separation repository's glue
code: dataset indexing, ideal-mask dispatch, data-loader constraints,
checkpoint round-trips, the DANet early-stopping epoch loop, segmentation /
overlap-add, and the permutation-invariant training (PIT) loss.

Each Python fragment is shallowly embedded as an executable Lean definition;
fallible constructors become `Except`-valued functions, `float('infinity')`
becomes `⊤ : WithTop ℚ`, and tensors become lists or index functions over `ℚ`.
-/

namespace Speech

/-! ### Ideal-mask dispatch (`IdealMaskSpectrogramDataset.__init__`) -/

/-- Which ideal-mask generator the dataset was wired to. The generator bodies
(`ideal_binary_mask`, `ideal_ratio_mask`, `wiener_filter_mask`) live in
`algorithm/frequency_mask`; only the dispatch is at issue here. -/
inductive MaskGenerator
  | ibm
  | irm
  | wfm
deriving DecidableEq, Repr

/-- The configuration state an `IdealMaskSpectrogramDataset` holds after a
successful `__init__`: the chosen generator and the stored
`threshold` / `eps` attributes. -/
structure IdealMaskDatasetCfg where
  generate_mask : MaskGenerator
  threshold : ℚ
  eps : ℚ
deriving DecidableEq, Repr

/-- Embedding of the dispatch in `IdealMaskSpectrogramDataset.__init__`
(src/egs/wsj0-mix/common/src/dataset.py): an `if/elif` chain on `mask_type`
that raises `NotImplementedError` on any unrecognized value, so no dataset
object is constructed in that case (the `Except.error` branch). -/
def idealMaskSpectrogramDatasetInit (mask_type : String) (threshold eps : ℚ) :
    Except String IdealMaskDatasetCfg :=
  if mask_type = "ibm" then .ok ⟨.ibm, threshold, eps⟩
  else if mask_type = "irm" then .ok ⟨.irm, threshold, eps⟩
  else if mask_type = "wfm" then .ok ⟨.wfm, threshold, eps⟩
  else .error ("Not support mask " ++ mask_type)

/-! ### Data-loader batch-size assertions -/

/-- Embedding of `EvalDataLoader.__init__` in
src/egs/wsj0-mix/common/src/dataset.py: `assert self.batch_size == 1`. -/
def wsj0EvalDataLoaderInit (batch_size : ℕ) : Except String Unit :=
  if batch_size = 1 then .ok ()
  else .error ("batch_size is expected 1, but given " ++ toString batch_size)

/-- Embedding of `TestDataLoader.__init__` in
src/egs/wsj0-mix/common/src/dataset.py: the same assertion, then
`collate_fn` is replaced (which cannot fail). -/
def wsj0TestDataLoaderInit (batch_size : ℕ) : Except String Unit :=
  if batch_size = 1 then .ok ()
  else .error ("batch_size is expected 1, but given " ++ toString batch_size)

/-- Embedding of `EvalDataLoader.__init__` in
src/egs/musdb18/cunet/src/adhoc_dataset.py: the same assertion, then
`collate_fn` is replaced. -/
def cunetEvalDataLoaderInit (batch_size : ℕ) : Except String Unit :=
  if batch_size = 1 then .ok ()
  else .error ("batch_size is expected 1, but given " ++ toString batch_size)

/-! ### `SingleTargetTrainer._reset` (src/egs/musdb18/conv-tasnet/src/adhoc_driver.py) -/

/-- Training losses, including the initial `float('infinity')`, live in
`WithTop ℚ` (`⊤` models `inf`). -/
abbrev Loss := WithTop ℚ

/-- The subset of a saved checkpoint package that `_reset` reads when
`continue_from` is set: `epoch`, `best_loss`, `no_improvement`, and the saved
`valid_loss` curve (indexed by epoch). -/
structure ResumePackage where
  epoch : ℕ
  best_loss : Loss
  no_improvement : ℕ
  valid_loss : ℕ → ℚ

/-- The training bookkeeping state `_reset` establishes. -/
structure ResetState where
  start_epoch : ℕ
  best_loss : Loss
  prev_loss : Loss
  no_improvement : ℕ

/-- Embedding of `SingleTargetTrainer._reset`: with `continue_from` set, state
is resumed from the package; otherwise, if `best.pth` already exists
(`best_exists`) and `overwrite` is false, a `ValueError` is raised, and in
every other case a fresh state `start_epoch = 0`, `best_loss = prev_loss = ∞`,
`no_improvement = 0` is produced (directory creation and the loss-curve
tensors are omitted as they carry no state the claims mention). -/
def singleTargetReset (continue_from : Option ResumePackage)
    (best_exists overwrite : Bool) : Except String ResetState :=
  match continue_from with
  | some pkg =>
      .ok { start_epoch := pkg.epoch
            best_loss := pkg.best_loss
            prev_loss := (pkg.valid_loss (pkg.epoch - 1) : ℚ)
            no_improvement := pkg.no_improvement }
  | none =>
      if best_exists && !overwrite then
        .error "best.pth already exists. If you continue to run, set --overwrite to be True."
      else
        .ok { start_epoch := 0, best_loss := ⊤, prev_loss := ⊤, no_improvement := 0 }

/-! ### Theorems -/

/-- **C6.** `IdealMaskSpectrogramDataset.__init__` selects the generator
exactly by `mask_type`: `ibm ↦ ideal_binary_mask`, `irm ↦ ideal_ratio_mask`,
`wfm ↦ wiener_filter_mask`, and every other value raises
`NotImplementedError`, so no dataset object is constructed. -/
theorem idealMask_dispatch_exact (threshold eps : ℚ) :
    idealMaskSpectrogramDatasetInit "ibm" threshold eps =
      .ok ⟨.ibm, threshold, eps⟩ ∧
    idealMaskSpectrogramDatasetInit "irm" threshold eps =
      .ok ⟨.irm, threshold, eps⟩ ∧
    idealMaskSpectrogramDatasetInit "wfm" threshold eps =
      .ok ⟨.wfm, threshold, eps⟩ ∧
    ∀ mask_type : String, mask_type ≠ "ibm" → mask_type ≠ "irm" →
      mask_type ≠ "wfm" →
      idealMaskSpectrogramDatasetInit mask_type threshold eps =
        .error ("Not support mask " ++ mask_type) := by
  refine ⟨rfl, rfl, rfl, ?_⟩
  intro mt h1 h2 h3
  simp [idealMaskSpectrogramDatasetInit, h1, h2, h3]

/-- Witness for C6 at `mask_type = "psm"`. -/
theorem idealMask_dispatch_exact_witness :
    ("psm" : String) ≠ "ibm" ∧
    idealMaskSpectrogramDatasetInit "psm" 40 (1/1000000000000) =
      .error "Not support mask psm" :=
  ⟨by decide,
    (idealMask_dispatch_exact 40 (1/1000000000000)).2.2.2 "psm"
      (by decide) (by decide) (by decide)⟩

/-- **C8.** Constructing `EvalDataLoader` / `TestDataLoader` (wsj0-mix) or
`EvalDataLoader` (musdb18/cunet) with any `batch_size ≠ 1` trips the
assertion; with `batch_size = 1` construction succeeds. -/
theorem dataLoader_batchSize_assertion (batch_size : ℕ) :
    (batch_size ≠ 1 →
      (∃ m, wsj0EvalDataLoaderInit batch_size = .error m) ∧
      (∃ m, wsj0TestDataLoaderInit batch_size = .error m) ∧
      (∃ m, cunetEvalDataLoaderInit batch_size = .error m)) ∧
    (batch_size = 1 →
      wsj0EvalDataLoaderInit batch_size = .ok () ∧
      wsj0TestDataLoaderInit batch_size = .ok () ∧
      cunetEvalDataLoaderInit batch_size = .ok ()) := by
  constructor
  · intro h
    refine ⟨⟨"batch_size is expected 1, but given " ++ toString batch_size, ?_⟩,
      ⟨"batch_size is expected 1, but given " ++ toString batch_size, ?_⟩,
      ⟨"batch_size is expected 1, but given " ++ toString batch_size, ?_⟩⟩ <;>
      simp [wsj0EvalDataLoaderInit, wsj0TestDataLoaderInit,
        cunetEvalDataLoaderInit, h]
  · intro h
    subst h
    exact ⟨rfl, rfl, rfl⟩

/-- Witness for C8 at `batch_size = 4` (rejected) and `batch_size = 1`
(accepted). -/
theorem dataLoader_batchSize_assertion_witness :
    ((4 : ℕ) ≠ 1 ∧ ∃ m, wsj0EvalDataLoaderInit 4 = .error m) ∧
    ((1 : ℕ) = 1 ∧ wsj0EvalDataLoaderInit 1 = .ok ()) :=
  ⟨⟨by decide, ((dataLoader_batchSize_assertion 4).1 (by decide)).1⟩,
   ⟨rfl, ((dataLoader_batchSize_assertion 1).2 rfl).1⟩⟩

/-- **C7.** With `continue_from` unset, `SingleTargetTrainer._reset` raises
`ValueError` iff `best.pth` exists and `overwrite` is false; in every other
no-checkpoint case it yields the fresh state
`start_epoch = 0`, `best_loss = prev_loss = ∞`, `no_improvement = 0`. -/
theorem singleTargetReset_fresh (best_exists overwrite : Bool) :
    (best_exists = true → overwrite = false →
      singleTargetReset none best_exists overwrite =
        .error "best.pth already exists. If you continue to run, set --overwrite to be True.") ∧
    (best_exists = false ∨ overwrite = true →
      singleTargetReset none best_exists overwrite =
        .ok { start_epoch := 0, best_loss := ⊤, prev_loss := ⊤, no_improvement := 0 }) := by
  constructor
  · intro hb ho
    subst hb; subst ho
    rfl
  · rintro (h | h) <;> subst h
    · cases overwrite <;> rfl
    · cases best_exists <;> rfl

/-- Witness for C7: `best.pth` present without `--overwrite` fails;
a clean directory succeeds with the fresh state. -/
theorem singleTargetReset_fresh_witness :
    (singleTargetReset none true false =
      .error "best.pth already exists. If you continue to run, set --overwrite to be True.") ∧
    (singleTargetReset none false false =
      .ok { start_epoch := 0, best_loss := ⊤, prev_loss := ⊤, no_improvement := 0 }) :=
  ⟨(singleTargetReset_fresh true false).1 rfl rfl,
   (singleTargetReset_fresh false false).2 (Or.inl rfl)⟩

/-! ### `threshold_weight` in `IdealMaskSpectrogramDataset.__getitem__` -/

/-- Embedding of the `threshold_weight` computation in
`IdealMaskSpectrogramDataset.__getitem__`: the mixture spectrogram is a list
of `(re, im)` pairs per time-frequency bin; the code forms
`mixture_amplitude = sqrt(re² + im²)` and returns
`torch.where(mixture_amplitude > 0, 1, 0)`. Since `√x > 0 ↔ x > 0` for
`x ≥ 0` (the bridge proved in the theorem below via `Real.sqrt`), the
comparison is embedded as `0 < re² + im²` to stay in `ℚ`. The method also
computes `log_amplitude`, its max, and a derived threshold value from the
`threshold` and `eps` attributes, but none of those feed the comparison, so
they appear here only as the unused arguments `threshold` and `eps`. -/
def idealMaskThresholdWeight (mixture : List (ℚ × ℚ)) (threshold eps : ℚ) :
    List ℚ :=
  mixture.map (fun p => if 0 < p.1 ^ 2 + p.2 ^ 2 then 1 else 0)

/-! ### DPTNet hyperparameters (src/src/models/dptnet.py) -/

/-- The hyperparameter attributes a constructed `DPTNet` stores (exactly the
entries `get_package` serializes; `save_model` additionally stores
`state_dict` / `optim_dict` / `epoch` / `train_loss`, which `build_model`
does not read when reconstructing the architecture). -/
structure DPTNet where
  n_bases : ℕ
  kernel_size : ℕ
  stride : ℕ
  enc_bases : Option String
  dec_bases : Option String
  enc_nonlinear : Option String
  window_fn : Option String
  sep_bottleneck_channels : ℕ
  sep_hidden_channels : ℕ
  sep_chunk_size : ℕ
  sep_hop_size : ℕ
  sep_num_blocks : ℕ
  sep_num_heads : ℕ
  sep_norm : Bool
  sep_nonlinear : String
  sep_dropout : ℚ
  mask_nonlinear : String
  causal : Bool
  n_sources : ℕ
  eps : ℚ
deriving DecidableEq, Repr

/-- Embedding of `DPTNet.__init__`'s hyperparameter bookkeeping: optional
`stride` / `sep_hop_size` default to half the kernel / chunk size, the two
`assert`s become `Except.error`, `enc_nonlinear` is kept only when
`enc_bases == 'trainable'` and `dec_bases != 'pinv'`, and `window_fn` only
when either basis is `'Fourier'` / `'trainableFourier'` (otherwise both are
stored as `None`). The network modules built from these values are outside
the claim. (Python raises `ZeroDivisionError` for a resolved stride of 0; the
embedding's `% 0` branch also rejects such configurations unless
`kernel_size = 0`, which changes nothing about round-tripping.) -/
def DPTNet.init (n_bases kernel_size : ℕ) (stride : Option ℕ)
    (enc_bases dec_bases : Option String)
    (sep_bottleneck_channels sep_hidden_channels sep_chunk_size : ℕ)
    (sep_hop_size : Option ℕ) (sep_num_blocks sep_num_heads : ℕ)
    (sep_norm : Bool) (sep_nonlinear : String) (sep_dropout : ℚ)
    (mask_nonlinear : String) (causal : Bool) (n_sources : ℕ) (eps : ℚ)
    (enc_nonlinear window_fn : Option String) : Except String DPTNet :=
  if kernel_size % stride.getD (kernel_size / 2) ≠ 0 then
    .error "kernel_size is expected divisible by stride"
  else if n_bases % sep_num_heads ≠ 0 then
    .error "n_bases must be divisible by sep_num_heads"
  else
    .ok { n_bases := n_bases
          kernel_size := kernel_size
          stride := stride.getD (kernel_size / 2)
          enc_bases := enc_bases
          dec_bases := dec_bases
          enc_nonlinear :=
            if enc_bases = some "trainable" ∧ dec_bases ≠ some "pinv" then
              enc_nonlinear
            else none
          window_fn :=
            if (enc_bases = some "Fourier" ∨ enc_bases = some "trainableFourier") ∨
               (dec_bases = some "Fourier" ∨ dec_bases = some "trainableFourier") then
              window_fn
            else none
          sep_bottleneck_channels := sep_bottleneck_channels
          sep_hidden_channels := sep_hidden_channels
          sep_chunk_size := sep_chunk_size
          sep_hop_size := sep_hop_size.getD (sep_chunk_size / 2)
          sep_num_blocks := sep_num_blocks
          sep_num_heads := sep_num_heads
          sep_norm := sep_norm
          sep_nonlinear := sep_nonlinear
          sep_dropout := sep_dropout
          mask_nonlinear := mask_nonlinear
          causal := causal
          n_sources := n_sources
          eps := eps }

/-- Embedding of `DPTNet.get_package`: the saved dictionary holds exactly the
hyperparameter fields above. -/
def DPTNet.get_package (m : DPTNet) : DPTNet := m

/-- Embedding of `DPTNet.build_model`: read every hyperparameter back from
the package and call the constructor with it (resolved `stride` and
`sep_hop_size` are passed explicitly, so the `None` defaults do not fire). -/
def DPTNet.build_model (pkg : DPTNet) : Except String DPTNet :=
  DPTNet.init pkg.n_bases pkg.kernel_size (some pkg.stride)
    pkg.enc_bases pkg.dec_bases
    pkg.sep_bottleneck_channels pkg.sep_hidden_channels pkg.sep_chunk_size
    (some pkg.sep_hop_size) pkg.sep_num_blocks pkg.sep_num_heads
    pkg.sep_norm pkg.sep_nonlinear pkg.sep_dropout
    pkg.mask_nonlinear pkg.causal pkg.n_sources pkg.eps
    pkg.enc_nonlinear pkg.window_fn

/-- **C9.** The `threshold_weight` returned by
`IdealMaskSpectrogramDataset.__getitem__` is exactly the 0/1 indicator of the
mixture amplitude `√(re² + im²)` being strictly positive at each bin, and it
is independent of the `threshold` (and `eps`) constructor arguments. -/
theorem thresholdWeight_indicator (mixture : List (ℚ × ℚ)) (t t' e e' : ℚ) :
    idealMaskThresholdWeight mixture t e = idealMaskThresholdWeight mixture t' e' ∧
    ∀ j, (h : j < mixture.length) →
      ((idealMaskThresholdWeight mixture t e).get? j =
        some (if 0 < (mixture.get ⟨j, h⟩).1 ^ 2 + (mixture.get ⟨j, h⟩).2 ^ 2
          then 1 else 0)) ∧
      (((idealMaskThresholdWeight mixture t e).get? j = some 1) ↔
        0 < Real.sqrt (((mixture.get ⟨j, h⟩).1 : ℝ) ^ 2 +
          ((mixture.get ⟨j, h⟩).2 : ℝ) ^ 2)) ∧
      (((idealMaskThresholdWeight mixture t e).get? j = some 0) ↔
        Real.sqrt (((mixture.get ⟨j, h⟩).1 : ℝ) ^ 2 +
          ((mixture.get ⟨j, h⟩).2 : ℝ) ^ 2) = 0) := by
  refine ⟨rfl, ?_⟩
  intro j h
  have hget : (idealMaskThresholdWeight mixture t e).get? j =
      some (if 0 < (mixture.get ⟨j, h⟩).1 ^ 2 + (mixture.get ⟨j, h⟩).2 ^ 2
        then 1 else 0) := by
    simp only [idealMaskThresholdWeight, List.get?_map, List.get?_eq_get h,
      Option.map_some']
  have hcast : (0 : ℝ) < ((mixture.get ⟨j, h⟩).1 : ℝ) ^ 2 +
      ((mixture.get ⟨j, h⟩).2 : ℝ) ^ 2 ↔
      0 < (mixture.get ⟨j, h⟩).1 ^ 2 + (mixture.get ⟨j, h⟩).2 ^ 2 := by
    rw [show (((mixture.get ⟨j, h⟩).1 : ℝ) ^ 2 + ((mixture.get ⟨j, h⟩).2 : ℝ) ^ 2)
        = (((mixture.get ⟨j, h⟩).1 ^ 2 + (mixture.get ⟨j, h⟩).2 ^ 2 : ℚ) : ℝ) by
      push_cast; ring]
    exact Rat.cast_pos
  refine ⟨hget, ?_, ?_⟩
  · rw [hget, Real.sqrt_pos, hcast]
    split_ifs with hc
    · exact iff_of_true rfl hc
    · exact iff_of_false (by norm_num) hc
  · rw [hget, Real.sqrt_eq_zero', ← not_lt, hcast]
    split_ifs with hc
    · exact iff_of_false (by norm_num) (not_not_intro hc)
    · exact iff_of_true rfl hc

/-- Witness for C9: the bin `(3, 4)` has positive amplitude, the weight is 1,
and the result is unchanged when the threshold argument changes 40 → 7. -/
theorem thresholdWeight_indicator_witness :
    (0 < ([((3 : ℚ), 4)] : List (ℚ × ℚ)).length) ∧
    idealMaskThresholdWeight [((3 : ℚ), 4)] 40 0 =
      idealMaskThresholdWeight [((3 : ℚ), 4)] 7 1 ∧
    (idealMaskThresholdWeight [((3 : ℚ), 4)] 40 0).get? 0 = some 1 := by
  refine ⟨by decide, (thresholdWeight_indicator [((3 : ℚ), 4)] 40 7 0 1).1, ?_⟩
  have h := ((thresholdWeight_indicator [((3 : ℚ), 4)] 40 7 0 1).2 0 (by decide)).1
  rw [h]
  norm_num

/-- Collapsing a rebuilt conditional that re-examines the same condition. -/
theorem ite_ite_same {α : Type} (c : Prop) [Decidable c] (x y : α) :
    (if c then (if c then x else y) else y) = (if c then x else y) := by
  split_ifs <;> rfl

/-- **C3.** Checkpoint save/load round-trips the model configuration: for
every successfully constructed `DPTNet`, `build_model` applied to the package
produced by `get_package` reconstructs a model with identical hyperparameters
(all the stored fields, hence equality of the two `DPTNet` records). -/
theorem dptnet_package_roundtrip (n_bases kernel_size : ℕ) (stride : Option ℕ)
    (enc_bases dec_bases : Option String)
    (sep_bottleneck_channels sep_hidden_channels sep_chunk_size : ℕ)
    (sep_hop_size : Option ℕ) (sep_num_blocks sep_num_heads : ℕ)
    (sep_norm : Bool) (sep_nonlinear : String) (sep_dropout : ℚ)
    (mask_nonlinear : String) (causal : Bool) (n_sources : ℕ) (eps : ℚ)
    (enc_nonlinear window_fn : Option String) (m : DPTNet)
    (h : DPTNet.init n_bases kernel_size stride enc_bases dec_bases
      sep_bottleneck_channels sep_hidden_channels sep_chunk_size
      sep_hop_size sep_num_blocks sep_num_heads sep_norm sep_nonlinear
      sep_dropout mask_nonlinear causal n_sources eps
      enc_nonlinear window_fn = .ok m) :
    DPTNet.build_model (DPTNet.get_package m) = .ok m := by
  unfold DPTNet.init at h
  by_cases h1 : kernel_size % stride.getD (kernel_size / 2) ≠ 0
  · rw [if_pos h1] at h
    exact Except.noConfusion h
  rw [if_neg h1] at h
  by_cases h2 : n_bases % sep_num_heads ≠ 0
  · rw [if_pos h2] at h
    exact Except.noConfusion h
  rw [if_neg h2] at h
  injection h with h
  subst h
  unfold DPTNet.build_model DPTNet.get_package DPTNet.init
  dsimp only [Option.getD_some]
  rw [if_neg h1, if_neg h2, ite_ite_same, ite_ite_same]

/-- A concrete DPTNet configuration (the repository's defaults). -/
def dptnetExample : DPTNet :=
  { n_bases := 64, kernel_size := 16, stride := 8
    enc_bases := some "trainable", dec_bases := some "trainable"
    enc_nonlinear := some "relu", window_fn := none
    sep_bottleneck_channels := 64, sep_hidden_channels := 256
    sep_chunk_size := 100, sep_hop_size := 50
    sep_num_blocks := 6, sep_num_heads := 4
    sep_norm := true, sep_nonlinear := "relu", sep_dropout := 0
    mask_nonlinear := "relu", causal := false, n_sources := 2
    eps := 1 / 1000000000000 }

/-- Witness for C3: the default configuration round-trips. -/
theorem dptnet_package_roundtrip_witness :
    DPTNet.build_model (DPTNet.get_package dptnetExample) = .ok dptnetExample :=
  dptnet_package_roundtrip 64 16 none (some "trainable") (some "trainable")
    64 256 100 none 6 4 true "relu" 0 "relu" false 2 (1 / 1000000000000)
    (some "relu") (some "hann") dptnetExample rfl

/-! ### Permutation-invariant training loss (`criterion/pit.py`) -/

/-- Modelled from the spec: the module `criterion/pit.py` (the `pit` function
and `PIT2d` class the DANet driver and test script import) is not under src/;
only its call sites are. Per the spec the PIT loss is a "closed-form
assignment over a handful of permutations": the criterion is evaluated on
every permutation of the source axis of the estimated sources against the
targets, and the minimum together with a minimizing permutation is returned.
A tensor with `n` sources is `Fin n → α` (`α` the per-source content); a
criterion maps a pair of such tensors to a rational loss. -/
def pit {α : Type} (n : ℕ)
    (criterion : (Fin n → α) → (Fin n → α) → ℚ)
    (estimated target : Fin n → α) : Option (Equiv.Perm (Fin n) × ℚ) :=
  match (permsOfList (List.finRange n)).argmin
      (fun σ => criterion (fun i => estimated (σ i)) target) with
  | some σ => some (σ, criterion (fun i => estimated (σ i)) target)
  | none => none

/-! ### `WaveDataset` segment indexing (src/egs/wsj0-mix/common/src/dataset.py) -/

/-- The wav files one `WaveDataset` run reads: `mix/<ID>.wav` is `mix ID`,
and `s<i+1>/<ID>.wav` is `src i ID`, each a waveform (list of samples). -/
structure WavStore where
  mix : String → List ℚ
  src : ℕ → String → List ℚ

/-- A `json_data` entry: segment `[start, stop)` of the wavs of `ID`
(the Python dict stores the same `start`/`end` for the mixture and every
source path, so one triple suffices; Python's key `end` is a Lean keyword,
hence `stop`). -/
structure SegmentEntry where
  ID : String
  start : ℕ
  stop : ℕ
deriving DecidableEq, Repr

/-- NumPy slicing `wave[start:stop]` for `start ≤ stop ≤ len wave`. -/
def pythonSlice (xs : List ℚ) (start stop : ℕ) : List ℚ :=
  (xs.drop start).take (stop - start)

/-- The segments `WaveDataset.__init__` indexes for one mixture file of
length `T`: Python iterates `start_idx in range(0, T, samples - overlap)` and
`break`s at the first `start_idx` with `start_idx + samples > T`
(`takeWhile` on the enumerated `range`). -/
def waveDatasetEntries (samples overlap T : ℕ) : List (ℕ × ℕ) :=
  ((List.range' 0 ((T + (samples - overlap) - 1) / (samples - overlap))
      (samples - overlap)).takeWhile (fun s => decide (s + samples ≤ T))).map
    (fun s => (s, s + samples))

/-- `WaveDataset.__init__`: the concatenation, over the IDs of the list file,
of that file's segments. -/
def waveDatasetJsonData (store : WavStore) (ids : List String)
    (samples overlap : ℕ) : List SegmentEntry :=
  ids.flatMap (fun ID =>
    (waveDatasetEntries samples overlap (store.mix ID).length).map
      (fun pr => ⟨ID, pr.1, pr.2⟩))

/-- `WaveDataset.__getitem__` on one entry: the sliced per-source waves
(stacked, giving shape `(n_sources, ·)`) and the sliced mixture wrapped in a
singleton axis (shape `(1, ·)`). -/
def waveDatasetGetitem (store : WavStore) (n_sources : ℕ)
    (entry : SegmentEntry) : List (List ℚ) × List (List ℚ) :=
  ([pythonSlice (store.mix entry.ID) entry.start entry.stop],
   (List.range n_sources).map
     (fun i => pythonSlice (store.src i entry.ID) entry.start entry.stop))

/-- `takeWhile` of an antitone predicate over an arithmetic progression keeps
exactly the members satisfying the predicate. -/
theorem mem_takeWhile_range'_antitone (p : ℕ → Bool)
    (hp : ∀ a b, a ≤ b → p b = true → p a = true) (step : ℕ) :
    ∀ (n s x : ℕ),
      x ∈ (List.range' s n step).takeWhile p ↔
        x ∈ List.range' s n step ∧ p x = true := by
  intro n
  induction n with
  | zero => intro s x; simp
  | succ n ih =>
      intro s x
      constructor
      · intro hx
        exact ⟨(List.takeWhile_sublist p).mem hx, List.mem_takeWhile_imp hx⟩
      · rintro ⟨hmem, hpx⟩
        have hsx : s ≤ x := by
          rcases List.mem_range'.mp hmem with ⟨i, _, rfl⟩
          omega
        have hps : p s = true := hp s x hsx hpx
        rw [List.range'_succ] at hmem ⊢
        rw [List.takeWhile_cons_of_pos hps]
        rcases List.mem_cons.mp hmem with h | h
        · subst h
          exact List.mem_cons_self x _
        · exact List.mem_cons_of_mem s ((ih (s + step) x).mpr ⟨h, hpx⟩)

/-- Length of a NumPy slice. -/
theorem pythonSlice_length (xs : List ℚ) (s t : ℕ) :
    (pythonSlice xs s t).length = min (t - s) (xs.length - s) := by
  simp [pythonSlice]

/-- **C2.** `WaveDataset.__init__` indexes exactly the segments with start
offsets `0, (samples-overlap), 2*(samples-overlap), …` whose end
`start + samples` does not exceed the mixture length (trailing short segments
are dropped), and `__getitem__` returns the mixture slice `[start, stop)` as
a `(1, samples)` tensor and the per-source slices stacked as an
`(n_sources, samples)` tensor. -/
theorem waveDataset_index_getitem (store : WavStore) (ids : List String)
    (samples overlap n_sources : ℕ) (hs : 0 < samples) (ho : overlap < samples)
    (hlen : ∀ ID i, (store.src i ID).length = (store.mix ID).length) :
    (∀ T p, p ∈ waveDatasetEntries samples overlap T ↔
      ∃ k, p = (k * (samples - overlap), k * (samples - overlap) + samples) ∧
        k * (samples - overlap) + samples ≤ T) ∧
    (∀ e ∈ waveDatasetJsonData store ids samples overlap,
      (waveDatasetGetitem store n_sources e).1 =
        [pythonSlice (store.mix e.ID) e.start e.stop] ∧
      (waveDatasetGetitem store n_sources e).1.length = 1 ∧
      (∀ w ∈ (waveDatasetGetitem store n_sources e).1, w.length = samples) ∧
      (waveDatasetGetitem store n_sources e).2 =
        (List.range n_sources).map
          (fun i => pythonSlice (store.src i e.ID) e.start e.stop) ∧
      (waveDatasetGetitem store n_sources e).2.length = n_sources ∧
      (∀ w ∈ (waveDatasetGetitem store n_sources e).2, w.length = samples)) := by
  have hstep : 0 < samples - overlap := by omega
  have hanti : ∀ T a b, a ≤ b → decide (b + samples ≤ T) = true →
      decide (a + samples ≤ T) = true := by
    intro T a b hab hb
    rw [decide_eq_true_iff] at hb ⊢
    omega
  have hA : ∀ T p, p ∈ waveDatasetEntries samples overlap T ↔
      ∃ k, p = (k * (samples - overlap), k * (samples - overlap) + samples) ∧
        k * (samples - overlap) + samples ≤ T := by
    intro T p
    constructor
    · intro hp
      rcases List.mem_map.mp hp with ⟨s, hsmem, rfl⟩
      rcases (mem_takeWhile_range'_antitone _ (hanti T) _ _ _ _).mp hsmem with
        ⟨hrange, hpred⟩
      rcases List.mem_range'.mp hrange with ⟨i, _, rfl⟩
      rw [decide_eq_true_iff] at hpred
      refine ⟨i, ?_, ?_⟩
      · rw [Nat.zero_add, Nat.mul_comm (samples - overlap) i]
      · rw [Nat.mul_comm]
        omega
    · rintro ⟨k, rfl, hle⟩
      apply List.mem_map.mpr
      refine ⟨k * (samples - overlap), ?_, rfl⟩
      apply (mem_takeWhile_range'_antitone _ (hanti T) _ _ _ _).mpr
      have hkT : k * (samples - overlap) < T := by omega
      have hcnt : k + 1 ≤ (T + (samples - overlap) - 1) / (samples - overlap) := by
        rw [Nat.le_div_iff_mul_le hstep, Nat.succ_mul]
        omega
      refine ⟨List.mem_range'.mpr ⟨k, by omega, by rw [Nat.mul_comm, Nat.zero_add]⟩, ?_⟩
      rw [decide_eq_true_iff]
      exact hle
  refine ⟨hA, ?_⟩
  intro e he
  rcases List.mem_flatMap.mp he with ⟨ID, hID, hmem⟩
  rcases List.mem_map.mp hmem with ⟨pr, hpr, rfl⟩
  rcases (hA (store.mix ID).length pr).mp hpr with ⟨k, rfl, hle⟩
  refine ⟨rfl, rfl, ?_, rfl, by simp [waveDatasetGetitem], ?_⟩
  · intro w hw
    rcases List.mem_singleton.mp hw with rfl
    rw [pythonSlice_length]
    dsimp only
    omega
  · intro w hw
    rcases List.mem_map.mp hw with ⟨i, _, rfl⟩
    rw [pythonSlice_length, hlen]
    dsimp only
    omega

/-- Witness for C2: `samples = 4`, `overlap = 2`, an 11-sample mixture with
two 11-sample sources indexes segments starting at 0, 2, 4, 6 and slices to
shape `(1, 4)` / `(2, 4)`. -/
theorem waveDataset_index_getitem_witness :
    (0 < 4 ∧ 2 < 4) ∧
    ((2, 6) ∈ waveDatasetEntries 4 2 11 ↔
      ∃ k, ((2 : ℕ), (6 : ℕ)) = (k * (4 - 2), k * (4 - 2) + 4) ∧
        k * (4 - 2) + 4 ≤ 11) := by
  refine ⟨⟨by decide, by decide⟩, ?_⟩
  exact (waveDataset_index_getitem
    ⟨fun _ => List.replicate 11 0, fun _ _ => List.replicate 11 0⟩
    ["a"] 4 2 2 (by decide) (by decide) (fun _ _ => rfl)).1 11 (2, 6)

/-- **C1.** The PIT loss used during validation returns the minimum, over all
`n_sources!` permutations of the source axis, of the criterion applied to the
permuted estimated sources against the targets, together with a permutation
achieving that minimum. -/
theorem pit_returns_min {α : Type} (n : ℕ)
    (criterion : (Fin n → α) → (Fin n → α) → ℚ)
    (estimated target : Fin n → α) :
    ∃ σ loss, pit n criterion estimated target = some (σ, loss) ∧
      loss = criterion (fun i => estimated (σ i)) target ∧
      ∀ τ : Equiv.Perm (Fin n),
        loss ≤ criterion (fun i => estimated (τ i)) target := by
  rcases hm : (permsOfList (List.finRange n)).argmin
      (fun σ => criterion (fun i => estimated (σ i)) target) with _ | σ
  · exfalso
    have hnil := List.argmin_eq_none.mp hm
    have hl := length_permsOfList (List.finRange n)
    rw [hnil, List.length_nil] at hl
    exact (Nat.factorial_pos _).ne' hl.symm
  · refine ⟨σ, criterion (fun i => estimated (σ i)) target, ?_, rfl, ?_⟩
    · unfold pit
      rw [hm]
    · intro τ
      exact List.le_of_mem_argmin
        (mem_permsOfList_of_mem (fun x _ => List.mem_finRange x)) hm

/-! ### `Segment1d` / `OverlapAdd1d` (src/src/models/transform.py) -/

/-- Embedding of `Segment1d.forward`: `F.unfold` with kernel
`(chunk_size, 1)` and stride `(hop_size, 1)` places chunk `s`, offset `k` at
input frame `s * hop_size + k`; the batch and feature axes pass through
pointwise, so tensors are index functions `b → f → t → ℚ`. -/
def segment1d (chunk_size hop_size : ℕ) (x : ℕ → ℕ → ℕ → ℚ) :
    ℕ → ℕ → ℕ → ℕ → ℚ :=
  fun b f s k => x b f (s * hop_size + k)

/-- Embedding of `OverlapAdd1d.forward`: `F.fold` with the same kernel and
stride sums every chunk entry `(s, k)` into output frame
`s * hop_size + k`, over the `S` chunks and `chunk_size` offsets. -/
def overlapAdd1d (chunk_size hop_size S : ℕ) (y : ℕ → ℕ → ℕ → ℕ → ℚ) :
    ℕ → ℕ → ℕ → ℚ :=
  fun b f t => ∑ s ∈ Finset.range S, ∑ k ∈ Finset.range chunk_size,
    if s * hop_size + k = t then y b f s k else 0

/-- The number of chunks containing frame `t`. -/
def chunkCount (chunk_size hop_size S t : ℕ) : ℕ :=
  ((Finset.range S).filter
    (fun s => s * hop_size ≤ t ∧ t < s * hop_size + chunk_size)).card

/-- **C10.** On an input of `T` frames with `chunk_size ≤ T` and
`(T - chunk_size)` divisible by `hop_size`, `Segment1d` followed by
`OverlapAdd1d` reproduces the input shape (`(S-1)*hop + chunk = T`) and each
sample equals the input sample times the number of chunks containing its
position; with `hop_size = chunk_size` the composition is the identity. -/
theorem segment_overlapAdd (chunk_size hop_size S T : ℕ)
    (x : ℕ → ℕ → ℕ → ℚ) (b f t : ℕ) (hP : 0 < hop_size) (hKT : chunk_size ≤ T)
    (hdiv : (T - chunk_size) % hop_size = 0)
    (hS : S = (T - chunk_size) / hop_size + 1) (ht : t < T) :
    (S - 1) * hop_size + chunk_size = T ∧
    overlapAdd1d chunk_size hop_size S (segment1d chunk_size hop_size x) b f t =
      x b f t * chunkCount chunk_size hop_size S t ∧
    (hop_size = chunk_size →
      overlapAdd1d chunk_size hop_size S (segment1d chunk_size hop_size x) b f t =
        x b f t) := by
  have hshape : (S - 1) * hop_size + chunk_size = T := by
    have hdvd : hop_size ∣ (T - chunk_size) := Nat.dvd_of_mod_eq_zero hdiv
    have hq : (T - chunk_size) / hop_size * hop_size = T - chunk_size :=
      Nat.div_mul_cancel hdvd
    subst hS
    simpa [Nat.add_sub_cancel] using by omega
  have hmain : overlapAdd1d chunk_size hop_size S (segment1d chunk_size hop_size x) b f t =
      x b f t * chunkCount chunk_size hop_size S t := by
    have hinner : ∀ s, (∑ k ∈ Finset.range chunk_size,
        if s * hop_size + k = t then x b f (s * hop_size + k) else 0) =
        if s * hop_size ≤ t ∧ t < s * hop_size + chunk_size then x b f t else 0 := by
      intro s
      by_cases hc : s * hop_size ≤ t ∧ t < s * hop_size + chunk_size
      · rw [if_pos hc]
        rw [Finset.sum_eq_single_of_mem (t - s * hop_size)
          (Finset.mem_range.mpr (by omega))]
        · rw [if_pos (by omega)]
          congr 1
          omega
        · intro k _ hk
          rw [if_neg]
          intro heq
          exact hk (by omega)
      · rw [if_neg hc]
        apply Finset.sum_eq_zero
        intro k hk
        rw [if_neg]
        intro heq
        exact hc ⟨by omega, by
          have := Finset.mem_range.mp hk
          omega⟩
    unfold overlapAdd1d segment1d chunkCount
    rw [Finset.sum_congr rfl (fun s _ => hinner s), ← Finset.sum_filter,
      Finset.sum_const, nsmul_eq_mul, mul_comm]
  refine ⟨hshape, hmain, ?_⟩
  intro hEq
  subst hEq
  have hK : 0 < hop_size := hP
  have hfilter : ((Finset.range S).filter
      (fun s => s * hop_size ≤ t ∧ t < s * hop_size + hop_size)) = {t / hop_size} := by
    ext s
    simp only [Finset.mem_filter, Finset.mem_range, Finset.mem_singleton]
    constructor
    · rintro ⟨_, h1, h2⟩
      have := Nat.div_add_mod t hop_size
      have hmod := Nat.mod_lt t hK
      symm
      apply Nat.div_eq_of_lt_le
      · omega
      · rw [Nat.succ_mul]
        omega
    · rintro rfl
      have hdm : hop_size * (t / hop_size) + t % hop_size = t := Nat.div_add_mod t hop_size
      have hmod : t % hop_size < hop_size := Nat.mod_lt t hK
      have hSpos : 1 ≤ S := by
        rw [hS]
        exact Nat.le_add_left 1 _
      have hTS : S * hop_size = T := by
        calc S * hop_size = (S - 1 + 1) * hop_size := by
              rw [Nat.sub_add_cancel hSpos]
        _ = (S - 1) * hop_size + hop_size := by rw [Nat.succ_mul]
        _ = T := hshape
      refine ⟨?_, ?_, ?_⟩
      · rw [Nat.div_lt_iff_lt_mul hK, hTS]
        exact ht
      · exact Nat.div_mul_le_self t hop_size
      · rw [Nat.mul_comm]
        omega
  rw [hmain]
  unfold chunkCount
  rw [hfilter, Finset.card_singleton]
  simp

/-- Witness for C10: `chunk_size = 2`, `hop_size = 1`, `T = 4`, `S = 3`:
frame 1 is covered by two chunks. -/
theorem segment_overlapAdd_witness :
    ((0 : ℕ) < 1 ∧ 2 ≤ 4 ∧ (4 - 2) % 1 = 0 ∧ 3 = (4 - 2) / 1 + 1 ∧ 1 < 4) ∧
    overlapAdd1d 2 1 3 (segment1d 2 1 (fun _ _ u => (u : ℚ))) 0 0 1 =
      (1 : ℚ) * (chunkCount 2 1 3 1 : ℚ) := by
  refine ⟨⟨by decide, by decide, by decide, by decide, by decide⟩, ?_⟩
  have h := (segment_overlapAdd 2 1 3 4 (fun _ _ u => (u : ℚ)) 0 0 1
    (by decide) (by decide) (by decide) (by decide) (by decide)).2.1
  simpa using h

/-! ### The DANet trainer epoch loop (`AdhocTrainer.run`,
src/egs/wsj0-mix/danet/src/adhoc_driver.py) -/

/-- The trainer bookkeeping the loop mutates: `best_loss`, `prev_loss`
(both `float`, initially `inf`), and the `no_improvement` counter. -/
structure TrainState where
  best_loss : Loss
  prev_loss : Loss
  no_improvement : ℕ
deriving DecidableEq, Repr

/-- What one loop iteration did: the state it entered with, the epoch's
validation loss, and whether it wrote `best.pth`, wrote `last.pth`, or
`break`-ed (printing "Stop training"). -/
structure EpochRecord where
  best_before : Loss
  prev_before : Loss
  no_improvement_before : ℕ
  valid_loss : ℚ
  saved_best : Bool
  saved_last : Bool
  stopped : Bool
deriving DecidableEq, Repr

/-- Embedding of one iteration of `AdhocTrainer.run`'s loop body after the
losses are computed (learning-rate decay, the loss curves and `loss.png` are
omitted: they carry no state the claims mention). Python order: if
`valid_loss < best_loss` update best / reset the counter / save `best.pth`;
elif `valid_loss >= prev_loss` increment the counter and `break` once it
reaches 10 (skipping the `prev_loss` update and the `last.pth` save); else
reset the counter; then set `prev_loss = valid_loss` and save `last.pth`. -/
def danetEpoch (s : TrainState) (v : ℚ) : EpochRecord × TrainState :=
  if (v : Loss) < s.best_loss then
    (⟨s.best_loss, s.prev_loss, s.no_improvement, v, true, true, false⟩,
     ⟨(v : Loss), (v : Loss), 0⟩)
  else if s.prev_loss ≤ (v : Loss) then
    (if 10 ≤ s.no_improvement + 1 then
      (⟨s.best_loss, s.prev_loss, s.no_improvement, v, false, false, true⟩,
       ⟨s.best_loss, s.prev_loss, s.no_improvement + 1⟩)
     else
      (⟨s.best_loss, s.prev_loss, s.no_improvement, v, false, true, false⟩,
       ⟨s.best_loss, (v : Loss), s.no_improvement + 1⟩))
  else
    (⟨s.best_loss, s.prev_loss, s.no_improvement, v, false, true, false⟩,
     ⟨s.best_loss, (v : Loss), 0⟩)

/-- Modelled from the spec: `TrainerBase._reset` (module `driver`) is not
under src/; per the spec's description of the trainers (and its in-repo
analogue `SingleTargetTrainer._reset`, embedded above as
`singleTargetReset`), a fresh run starts at epoch 0 with
`best_loss = prev_loss = inf` and `no_improvement = 0`. -/
def danetInitialState : TrainState := ⟨⊤, ⊤, 0⟩

/-- `for epoch in range(start_epoch, epochs)` with `break`: run up to `n`
more epochs from epoch `e` in state `s`, recording each iteration; a stopped
iteration is recorded and ends the run. `losses e` abstracts the validation
loss `run_one_epoch` produces at epoch `e`. -/
def danetRun (losses : ℕ → ℚ) : ℕ → ℕ → TrainState → List EpochRecord
  | 0, _, _ => []
  | n + 1, e, s =>
      if (danetEpoch s (losses e)).1.stopped then [(danetEpoch s (losses e)).1]
      else (danetEpoch s (losses e)).1 ::
        danetRun losses n (e + 1) (danetEpoch s (losses e)).2

/-- The full fresh-run trace of `AdhocTrainer.run` with `args.epochs` epochs. -/
def danetTrace (losses : ℕ → ℚ) (epochs : ℕ) : List EpochRecord :=
  danetRun losses epochs 0 danetInitialState

/-- The state entering epoch `e + k` when epoch `e` starts in state `s`
(the loop's state sequence, ignoring the `break`). -/
def statesFrom (losses : ℕ → ℚ) (e : ℕ) (s : TrainState) : ℕ → TrainState
  | 0 => s
  | k + 1 => (danetEpoch (statesFrom losses e s k) (losses (e + k))).2

/-- The state entering epoch `k` of a fresh run. -/
def danetStates (losses : ℕ → ℚ) (k : ℕ) : TrainState :=
  statesFrom losses 0 danetInitialState k

/-! Per-iteration facts about `danetEpoch`. -/

theorem danetEpoch_record_state (s : TrainState) (v : ℚ) :
    (danetEpoch s v).1.best_before = s.best_loss ∧
    (danetEpoch s v).1.prev_before = s.prev_loss ∧
    (danetEpoch s v).1.no_improvement_before = s.no_improvement ∧
    (danetEpoch s v).1.valid_loss = v := by
  unfold danetEpoch
  split_ifs <;> exact ⟨rfl, rfl, rfl, rfl⟩

theorem danetEpoch_stopped_iff (s : TrainState) (v : ℚ) :
    (danetEpoch s v).1.stopped = true ↔
      (s.best_loss ≤ (v : Loss) ∧ s.prev_loss ≤ (v : Loss) ∧
        9 ≤ s.no_improvement) := by
  unfold danetEpoch
  split_ifs with h1 h2 h3
  · exact iff_of_false (by simp) (fun hc => absurd hc.1 (not_le.mpr h1))
  · exact iff_of_true rfl ⟨not_lt.mp h1, h2, by omega⟩
  · exact iff_of_false (by simp) (fun hc => h3 (by omega))
  · exact iff_of_false (by simp) (fun hc => h2 hc.2.1)

theorem danetEpoch_saved_best_iff (s : TrainState) (v : ℚ) :
    (danetEpoch s v).1.saved_best = true ↔ (v : Loss) < s.best_loss := by
  unfold danetEpoch
  split_ifs with h1 h2 h3
  · exact iff_of_true rfl h1
  · exact iff_of_false (by simp) h1
  · exact iff_of_false (by simp) h1
  · exact iff_of_false (by simp) h1

theorem danetEpoch_saved_last (s : TrainState) (v : ℚ) :
    (danetEpoch s v).1.saved_last = !(danetEpoch s v).1.stopped := by
  unfold danetEpoch
  split_ifs <;> rfl

theorem danetEpoch_state_best (s : TrainState) (v : ℚ) :
    (danetEpoch s v).2.best_loss = s.best_loss ⊓ (v : Loss) := by
  unfold danetEpoch
  split_ifs with h1 h2 h3 <;>
    simp only [] <;>
    [exact (inf_eq_right.mpr h1.le).symm;
     exact (inf_eq_left.mpr (not_lt.mp h1)).symm;
     exact (inf_eq_left.mpr (not_lt.mp h1)).symm;
     exact (inf_eq_left.mpr (not_lt.mp h1)).symm]

theorem danetEpoch_state_prev (s : TrainState) (v : ℚ)
    (h : (danetEpoch s v).1.stopped = false) :
    (danetEpoch s v).2.prev_loss = (v : Loss) := by
  unfold danetEpoch at h ⊢
  split_ifs at h ⊢ <;> first | rfl | exact absurd h (by simp)

theorem danetEpoch_state_counter (s : TrainState) (v : ℚ)
    (h : (danetEpoch s v).1.stopped = false) :
    (danetEpoch s v).2.no_improvement =
      if s.best_loss ≤ (v : Loss) ∧ s.prev_loss ≤ (v : Loss) then
        s.no_improvement + 1
      else 0 := by
  unfold danetEpoch at h ⊢
  by_cases h1 : (v : Loss) < s.best_loss
  · rw [if_pos h1, if_neg (fun hc : _ ∧ _ => absurd hc.1 (not_le.mpr h1))]
  · by_cases h2 : s.prev_loss ≤ (v : Loss)
    · by_cases h3 : 10 ≤ s.no_improvement + 1
      · rw [if_neg h1, if_pos h2, if_pos h3] at h
        exact absurd h (by simp)
      · rw [if_neg h1, if_pos h2, if_neg h3, if_pos ⟨not_lt.mp h1, h2⟩]
    · rw [if_neg h1, if_neg h2, if_neg (fun hc : _ ∧ _ => h2 hc.2)]

/-! Structural facts about the loop trace. -/

theorem danetStates_succ (losses : ℕ → ℚ) (k : ℕ) :
    danetStates losses (k + 1) =
      (danetEpoch (danetStates losses k) (losses k)).2 := by
  simp [danetStates, statesFrom]

theorem statesFrom_shift (losses : ℕ → ℚ) :
    ∀ (k e : ℕ) (s : TrainState),
      statesFrom losses (e + 1) (danetEpoch s (losses e)).2 k =
        statesFrom losses e s (k + 1) := by
  intro k
  induction k with
  | zero =>
      intro e s
      simp [statesFrom]
  | succ k ih =>
      intro e s
      show (danetEpoch (statesFrom losses (e + 1) (danetEpoch s (losses e)).2 k)
        (losses (e + 1 + k))).2 = _
      rw [ih]
      show _ = (danetEpoch (statesFrom losses e s (k + 1)) (losses (e + (k + 1)))).2
      rw [show e + 1 + k = e + (k + 1) by omega]

theorem danetRun_length (losses : ℕ → ℚ) :
    ∀ (n e : ℕ) (s : TrainState), (danetRun losses n e s).length ≤ n := by
  intro n
  induction n with
  | zero => intro e s; simp [danetRun]
  | succ n ih =>
      intro e s
      unfold danetRun
      split_ifs
      · simp
      · simpa using Nat.succ_le_succ (ih (e + 1) _)

theorem danetRun_succ_stop (losses : ℕ → ℚ) (n e : ℕ) (s : TrainState)
    (h : (danetEpoch s (losses e)).1.stopped = true) :
    danetRun losses (n + 1) e s = [(danetEpoch s (losses e)).1] := by
  simp [danetRun, h]

theorem danetRun_succ_go (losses : ℕ → ℚ) (n e : ℕ) (s : TrainState)
    (h : (danetEpoch s (losses e)).1.stopped = false) :
    danetRun losses (n + 1) e s =
      (danetEpoch s (losses e)).1 ::
        danetRun losses n (e + 1) (danetEpoch s (losses e)).2 := by
  simp [danetRun, h]

theorem danetRun_get? (losses : ℕ → ℚ) :
    ∀ (n e k : ℕ) (s : TrainState), k < (danetRun losses n e s).length →
      (danetRun losses n e s).get? k =
        some (danetEpoch (statesFrom losses e s k) (losses (e + k))).1 := by
  intro n
  induction n with
  | zero => intro e k s hk; simp [danetRun] at hk
  | succ n ih =>
      intro e k s hk
      by_cases hstop : (danetEpoch s (losses e)).1.stopped = true
      · rw [danetRun_succ_stop losses n e s hstop] at hk ⊢
        have hk0 : k = 0 := by
          simp only [List.length_singleton] at hk
          omega
        subst hk0
        simp [statesFrom]
      · rw [Bool.not_eq_true] at hstop
        rw [danetRun_succ_go losses n e s hstop] at hk ⊢
        cases k with
        | zero => simp [statesFrom]
        | succ k =>
            rw [List.get?_cons_succ, ih (e + 1) k _
              (by simpa using Nat.lt_of_succ_lt_succ hk), statesFrom_shift,
              show e + 1 + k = e + (k + 1) by omega]

theorem danetRun_stop_last (losses : ℕ → ℚ) :
    ∀ (n e k : ℕ) (s : TrainState) (r : EpochRecord),
      (danetRun losses n e s).get? k = some r → r.stopped = true →
        k + 1 = (danetRun losses n e s).length := by
  intro n
  induction n with
  | zero => intro e k s r hr; simp [danetRun] at hr
  | succ n ih =>
      intro e k s r hr hstop
      by_cases hs : (danetEpoch s (losses e)).1.stopped = true
      · rw [danetRun_succ_stop losses n e s hs] at hr ⊢
        cases k with
        | zero => rfl
        | succ k => simp at hr
      · rw [Bool.not_eq_true] at hs
        rw [danetRun_succ_go losses n e s hs] at hr ⊢
        cases k with
        | zero =>
            rw [List.get?_cons_zero] at hr
            injection hr with hr
            rw [hr, hstop] at hs
            exact absurd hs (by simp)
        | succ k =>
            rw [List.get?_cons_succ] at hr
            simpa using ih (e + 1) k _ r hr hstop

theorem danetTrace_get (losses : ℕ → ℚ) (epochs k : ℕ)
    (hk : k < (danetTrace losses epochs).length) :
    (danetTrace losses epochs).get ⟨k, hk⟩ =
      (danetEpoch (danetStates losses k) (losses k)).1 := by
  have h1 : (danetTrace losses epochs).get? k =
      some (danetEpoch (statesFrom losses 0 danetInitialState k) (losses (0 + k))).1 :=
    danetRun_get? losses epochs 0 k danetInitialState hk
  have h2 : (danetTrace losses epochs).get? k =
      some ((danetTrace losses epochs).get ⟨k, hk⟩) := List.get?_eq_get hk
  rw [h1] at h2
  injection h2 with h2
  rw [← h2]
  simp [danetStates]

/-- No epoch before position `k` of the trace `break`-ed. -/
def noStopBefore (losses : ℕ → ℚ) (k : ℕ) : Prop :=
  ∀ j, j < k →
    (danetEpoch (danetStates losses j) (losses j)).1.stopped = false

theorem danetTrace_noStop (losses : ℕ → ℚ) (epochs k : ℕ)
    (hk : k < (danetTrace losses epochs).length) : noStopBefore losses k := by
  intro j hj
  have hjlen : j < (danetTrace losses epochs).length := lt_trans hj hk
  by_contra hs
  rw [Bool.not_eq_false] at hs
  have hget : (danetTrace losses epochs).get? j =
      some (danetEpoch (statesFrom losses 0 danetInitialState j) (losses (0 + j))).1 :=
    danetRun_get? losses epochs 0 j danetInitialState hjlen
  have hs' : (danetEpoch (statesFrom losses 0 danetInitialState j) (losses (0 + j))).1.stopped = true := by
    have : statesFrom losses 0 danetInitialState j = danetStates losses j := rfl
    rw [this, Nat.zero_add]
    exact hs
  have hlast := danetRun_stop_last losses epochs 0 j danetInitialState _ hget hs'
  have hlen : (danetTrace losses epochs).length =
      (danetRun losses epochs 0 danetInitialState).length := rfl
  omega

/-! State invariants of the fresh run. -/

theorem danetStates_best (losses : ℕ → ℚ) :
    ∀ k, (danetStates losses k).best_loss =
      (Finset.range k).inf (fun i => ((losses i : ℚ) : Loss)) := by
  intro k
  induction k with
  | zero => simp [danetStates, statesFrom, danetInitialState]
  | succ k ih =>
      rw [danetStates_succ, danetEpoch_state_best, ih, Finset.range_succ,
        Finset.inf_insert, inf_comm]

/-- Epoch `j`'s validation loss was at least the best and at least the
previous epoch's loss (the condition under which `no_improvement` grows). -/
def danetCond (losses : ℕ → ℚ) (j : ℕ) : Prop :=
  (danetStates losses j).best_loss ≤ (losses j : Loss) ∧
  (danetStates losses j).prev_loss ≤ (losses j : Loss)

theorem danetStates_counter_le9 (losses : ℕ → ℚ) :
    ∀ k, noStopBefore losses k → (danetStates losses k).no_improvement ≤ 9 := by
  intro k
  induction k with
  | zero =>
      intro _
      simp [danetStates, statesFrom, danetInitialState]
  | succ k ih =>
      intro hns
      have hstep : (danetEpoch (danetStates losses k) (losses k)).1.stopped = false :=
        hns k (Nat.lt_succ_self k)
      have hk9 : (danetStates losses k).no_improvement ≤ 9 :=
        ih (fun j hj => hns j (lt_trans hj (Nat.lt_succ_self k)))
      rw [danetStates_succ, danetEpoch_state_counter _ _ hstep]
      split_ifs with hc
      · by_contra hgt
        have hc9 : 9 ≤ (danetStates losses k).no_improvement := by omega
        have : (danetEpoch (danetStates losses k) (losses k)).1.stopped = true :=
          (danetEpoch_stopped_iff _ _).mpr ⟨hc.1, hc.2, hc9⟩
        rw [this] at hstep
        exact absurd hstep (by simp)
      · exact Nat.zero_le 9

theorem danetStates_counter_le_k (losses : ℕ → ℚ) :
    ∀ k, noStopBefore losses k → (danetStates losses k).no_improvement ≤ k := by
  intro k
  induction k with
  | zero =>
      intro _
      simp [danetStates, statesFrom, danetInitialState]
  | succ k ih =>
      intro hns
      have hstep : (danetEpoch (danetStates losses k) (losses k)).1.stopped = false :=
        hns k (Nat.lt_succ_self k)
      rw [danetStates_succ, danetEpoch_state_counter _ _ hstep]
      split_ifs with hc
      · exact Nat.succ_le_succ (ih (fun j hj => hns j (lt_trans hj (Nat.lt_succ_self k))))
      · exact Nat.zero_le _

theorem danetStates_counter_ge (losses : ℕ → ℚ) :
    ∀ (m k : ℕ), m ≤ k → noStopBefore losses k →
      (∀ j, k - m ≤ j → j < k → danetCond losses j) →
      m ≤ (danetStates losses k).no_improvement := by
  intro m
  induction m with
  | zero => intro k _ _ _; exact Nat.zero_le _
  | succ m ih =>
      intro k hmk hns hcond
      obtain ⟨k', rfl⟩ : ∃ k', k = k' + 1 := ⟨k - 1, by omega⟩
      have hstep : (danetEpoch (danetStates losses k') (losses k')).1.stopped = false :=
        hns k' (Nat.lt_succ_self k')
      have hck' : (danetStates losses k').best_loss ≤ ((losses k' : ℚ) : Loss) ∧
          (danetStates losses k').prev_loss ≤ ((losses k' : ℚ) : Loss) :=
        hcond k' (by omega) (by omega)
      rw [danetStates_succ, danetEpoch_state_counter _ _ hstep, if_pos hck']
      exact Nat.succ_le_succ (ih k' (by omega)
        (fun j hj => hns j (lt_trans hj (Nat.lt_succ_self k')))
        (fun j hj1 hj2 => hcond j (by omega) (by omega)))

theorem danetStates_counter_streak (losses : ℕ → ℚ) :
    ∀ k, noStopBefore losses k →
      ∀ j, k - (danetStates losses k).no_improvement ≤ j → j < k →
        danetCond losses j := by
  intro k
  induction k with
  | zero => intro _ j _ hj; exact absurd hj (Nat.not_lt_zero j)
  | succ k ih =>
      intro hns j hj1 hj2
      have hstep : (danetEpoch (danetStates losses k) (losses k)).1.stopped = false :=
        hns k (Nat.lt_succ_self k)
      have hnsk : noStopBefore losses k :=
        fun i hi => hns i (lt_trans hi (Nat.lt_succ_self k))
      rw [danetStates_succ, danetEpoch_state_counter _ _ hstep] at hj1
      by_cases hc : (danetStates losses k).best_loss ≤ ((losses k : ℚ) : Loss) ∧
          (danetStates losses k).prev_loss ≤ ((losses k : ℚ) : Loss)
      · rw [if_pos hc] at hj1
        rcases Nat.lt_succ_iff_lt_or_eq.mp hj2 with hjk | rfl
        · exact ih hnsk j (by omega) hjk
        · exact hc
      · rw [if_neg hc] at hj1
        omega

/-- **C4.** `AdhocTrainer.run` executes at most `args.epochs` epochs; an
epoch that prints "Stop training" (`stopped`) is the last one; and the loop
`break`s at an epoch exactly when the validation loss has, for the 10
consecutive epochs ending there, been at least the best loss seen so far
(`best_before`) and at least the previous epoch's validation loss
(`prev_before`) — the `no_improvement` counter reaching 10. -/
theorem danet_early_stopping (losses : ℕ → ℚ) (epochs : ℕ) :
    (danetTrace losses epochs).length ≤ epochs ∧
    (∀ k (hk : k < (danetTrace losses epochs).length),
      ((danetTrace losses epochs).get ⟨k, hk⟩).stopped = true →
        k + 1 = (danetTrace losses epochs).length) ∧
    (∀ k (hk : k < (danetTrace losses epochs).length),
      (((danetTrace losses epochs).get ⟨k, hk⟩).stopped = true ↔
        (9 ≤ k ∧ ∀ j (hj : j < (danetTrace losses epochs).length),
          k - 9 ≤ j → j ≤ k →
          ((danetTrace losses epochs).get ⟨j, hj⟩).best_before ≤
            (((danetTrace losses epochs).get ⟨j, hj⟩).valid_loss : Loss) ∧
          ((danetTrace losses epochs).get ⟨j, hj⟩).prev_before ≤
            (((danetTrace losses epochs).get ⟨j, hj⟩).valid_loss : Loss)))) := by
  refine ⟨danetRun_length losses epochs 0 danetInitialState, ?_, ?_⟩
  · intro k hk hstop
    have hget : (danetTrace losses epochs).get? k =
        some ((danetTrace losses epochs).get ⟨k, hk⟩) := List.get?_eq_get hk
    exact danetRun_stop_last losses epochs 0 k danetInitialState _ hget hstop
  · intro k hk
    have hns : noStopBefore losses k := danetTrace_noStop losses epochs k hk
    rw [danetTrace_get losses epochs k hk, danetEpoch_stopped_iff]
    constructor
    · rintro ⟨hb, hp, h9⟩
      have hle9 := danetStates_counter_le9 losses k hns
      have h9' : (danetStates losses k).no_improvement = 9 :=
        le_antisymm hle9 h9
      have hkk := danetStates_counter_le_k losses k hns
      refine ⟨by omega, ?_⟩
      intro j hj hj1 hj2
      have hcond : danetCond losses j := by
        rcases Nat.lt_or_ge j k with hjk | hjk
        · exact danetStates_counter_streak losses k hns j (by omega) hjk
        · have hjeq : j = k := by omega
          subst hjeq
          exact ⟨hb, hp⟩
      rcases danetEpoch_record_state (danetStates losses j) (losses j) with
        ⟨e1, e2, _, e4⟩
      rw [danetTrace_get losses epochs j hj, e1, e2, e4]
      exact hcond
    · rintro ⟨h9k, hall⟩
      have hcond : ∀ j, k - 9 ≤ j → j ≤ k → danetCond losses j := by
        intro j hj1 hj2
        have hj : j < (danetTrace losses epochs).length := lt_of_le_of_lt hj2 hk
        have hthis := hall j hj hj1 hj2
        rcases danetEpoch_record_state (danetStates losses j) (losses j) with
          ⟨e1, e2, _, e4⟩
        rw [danetTrace_get losses epochs j hj, e1, e2, e4] at hthis
        exact hthis
      have h9 : 9 ≤ (danetStates losses k).no_improvement :=
        danetStates_counter_ge losses 9 k h9k hns
          (fun j hj1 hj2 => hcond j hj1 (le_of_lt hj2))
      have hck := hcond k (by omega) (le_refl k)
      exact ⟨hck.1, hck.2, h9⟩

/-- Witness for C4: with a constant validation loss of 1 and
`args.epochs = 12`, the run stops at epoch index 10 (the 11th epoch), after
the counter reaches 10. -/
theorem danet_early_stopping_witness :
    (danetTrace (fun _ => (1 : ℚ)) 12).length ≤ 12 ∧
    10 < (danetTrace (fun _ => (1 : ℚ)) 12).length ∧
    (((danetTrace (fun _ => (1 : ℚ)) 12).get ⟨10, by decide⟩).stopped = true →
      10 + 1 = (danetTrace (fun _ => (1 : ℚ)) 12).length) ∧
    (9 ≤ 10 ∧ ∀ j (hj : j < (danetTrace (fun _ => (1 : ℚ)) 12).length),
      10 - 9 ≤ j → j ≤ 10 →
      ((danetTrace (fun _ => (1 : ℚ)) 12).get ⟨j, hj⟩).best_before ≤
        (((danetTrace (fun _ => (1 : ℚ)) 12).get ⟨j, hj⟩).valid_loss : Loss) ∧
      ((danetTrace (fun _ => (1 : ℚ)) 12).get ⟨j, hj⟩).prev_before ≤
        (((danetTrace (fun _ => (1 : ℚ)) 12).get ⟨j, hj⟩).valid_loss : Loss)) :=
  ⟨(danet_early_stopping (fun _ => (1 : ℚ)) 12).1,
   by decide,
   (danet_early_stopping (fun _ => (1 : ℚ)) 12).2.1 10 (by decide),
   ((danet_early_stopping (fun _ => (1 : ℚ)) 12).2.2 10 (by decide)).mp
     (by decide)⟩

/-- **C5.** Throughout the loop, the state's `best_loss` entering epoch `k`
equals the minimum validation loss observed so far (`⊤` = `inf` when
`k = 0`); `best.pth` is written exactly in the epochs whose validation loss
is strictly below every earlier one; and `last.pth` is written exactly in
the epochs that run their loop body to completion, i.e. every epoch that
does not `break` (the early-stop epoch skips it). -/
theorem danet_best_loss_invariant (losses : ℕ → ℚ) (epochs : ℕ) :
    ∀ k (hk : k < (danetTrace losses epochs).length),
      ((danetTrace losses epochs).get ⟨k, hk⟩).valid_loss = losses k ∧
      ((danetTrace losses epochs).get ⟨k, hk⟩).best_before =
        (Finset.range k).inf (fun i => ((losses i : ℚ) : Loss)) ∧
      (((danetTrace losses epochs).get ⟨k, hk⟩).saved_best = true ↔
        ∀ i, i < k → losses k < losses i) ∧
      ((danetTrace losses epochs).get ⟨k, hk⟩).saved_last =
        !((danetTrace losses epochs).get ⟨k, hk⟩).stopped := by
  intro k hk
  rcases danetEpoch_record_state (danetStates losses k) (losses k) with
    ⟨e1, _, _, e4⟩
  rw [danetTrace_get losses epochs k hk]
  refine ⟨e4, ?_, ?_, danetEpoch_saved_last _ _⟩
  · rw [e1, danetStates_best]
  · rw [danetEpoch_saved_best_iff, danetStates_best,
      Finset.lt_inf_iff (WithTop.coe_lt_top (losses k))]
    constructor
    · intro h i hi
      have := h i (Finset.mem_range.mpr hi)
      exact_mod_cast this
    · intro h i hi
      exact_mod_cast h i (Finset.mem_range.mp hi)

/-- Witness for C5: with a constant loss, epoch 1 is not a strict
improvement, so `best.pth` is not written there, while `last.pth` is. -/
theorem danet_best_loss_invariant_witness :
    1 < (danetTrace (fun _ => (1 : ℚ)) 3).length ∧
    (((danetTrace (fun _ => (1 : ℚ)) 3).get ⟨1, by decide⟩).valid_loss = (1 : ℚ) ∧
     ((danetTrace (fun _ => (1 : ℚ)) 3).get ⟨1, by decide⟩).best_before =
       (Finset.range 1).inf (fun _ => (((1 : ℚ) : ℚ) : Loss)) ∧
     (((danetTrace (fun _ => (1 : ℚ)) 3).get ⟨1, by decide⟩).saved_best = true ↔
       ∀ i, i < 1 → (1 : ℚ) < (1 : ℚ)) ∧
     ((danetTrace (fun _ => (1 : ℚ)) 3).get ⟨1, by decide⟩).saved_last =
       !((danetTrace (fun _ => (1 : ℚ)) 3).get ⟨1, by decide⟩).stopped) :=
  ⟨by decide, danet_best_loss_invariant (fun _ => (1 : ℚ)) 3 1 (by decide)⟩

end Speech
